import Mathlib

/-!
The handler of clientapi/routing/joinroom.go.

A shallow embedding of `JoinRoomByIDOrAlias`, the client API handler that asks
the roomserver to join a room, waits for the join in a background goroutine and
answers either with the result of the join or, after twenty seconds, with
202 Accepted.

The sequential part of the handler (lines 37 to 78) is a pure function.  The
concurrent part (lines 80 to 116: the goroutine, the channel `done`, the timer
of `time.After` and the `select`) is a transition system that is driven by an
explicit schedule.
-/

namespace Dendrite

/-! ## Go values used by the handler -/

/-- A non-nil Go `error` value.  The handler only compares errors with `==`
(the `switch err` of line 67), so an error is represented by its identity. -/
structure GoError where
  id : Nat
  deriving DecidableEq, Repr

/-- A `context.Context`, represented by its identity. -/
structure Context where
  id : Nat
  deriving DecidableEq, Repr

/-- A value stored in a `map[string]interface{}`: a Go string, or any other
decoded JSON value (number, boolean, array, object, null) kept as its JSON
text. -/
inductive Value where
  | str (s : String)
  | json (raw : String)
  deriving DecidableEq, Repr

/-- The entries of a non-nil Go `map[string]interface{}`. -/
abbrev Entries := String → Option Value

/-- A Go `map[string]interface{}`; `none` is the nil map. -/
abbrev Content := Option Entries

/-- The map literal `map[string]interface{}{}` of line 42: non-nil, no entries. -/
def Content.empty : Content := some (fun _ => none)

/-- Reading `m[k]`.  Reading a nil map is allowed in Go and finds nothing. -/
def Content.get (m : Content) (k : String) : Option Value :=
  match m with
  | none => none
  | some es => es k

/-- The assignment `m[k] = v`.  On a nil map Go panics ("assignment to entry in
nil map"); that is the result `none`. -/
def Content.set (m : Content) (k : String) (v : Value) : Option Content :=
  match m with
  | none => none
  | some es => some (some (fun k' => if k' = k then some v else es k'))

/-- Storing the top-level members of a decoded JSON object into the entries of
a map, in the order of the document (a repeated key keeps its last value). -/
def Entries.merge (es : Entries) (members : List (String × Value)) : Entries :=
  members.foldl (fun acc kv => fun k' => if k' = kv.1 then some kv.2 else acc k') es

/-- The type `gomatrixserverlib.ServerName`, a named string type. -/
structure ServerName where
  val : String
  deriving DecidableEq, Repr

/-- The fields of `api.Device` that the handler reads.  `AccountType` is an
integer enumeration. -/
structure Device where
  UserID : String
  AccountType : Int
  deriving DecidableEq, Repr

/-- The fields of the profile returned by `QueryProfile` that the handler
reads. -/
structure Profile where
  DisplayName : String
  AvatarURL : String
  deriving DecidableEq, Repr

/-- The struct `roomserverAPI.PerformJoinRequest`, as filled in lines 38 to 43. -/
structure PerformJoinRequest where
  RoomIDOrAlias : String
  UserID : String
  IsGuest : Bool
  Content : Content
  ServerNames : List ServerName

/-- The fields of `roomserverAPI.PerformError` that the handler reads.  `Code`
is an integer enumeration. -/
structure PerformError where
  Code : Int
  Msg : String
  deriving DecidableEq, Repr

/-- The fields of `roomserverAPI.PerformJoinResponse` that the handler reads;
`Error` is a pointer, `none` is nil. -/
structure PerformJoinResponse where
  RoomID : String
  Error : Option PerformError
  deriving DecidableEq, Repr

/-- The value `roomserverAPI.PerformJoinResponse{}` of line 44. -/
def PerformJoinResponse.zero : PerformJoinResponse := { RoomID := "", Error := none }

/-- What the field `JSON interface{}` of a response holds.  `X` is the type of
the values built outside this file (the results of package `jsonerror`). -/
inductive JSONValue (X : Type) where
  | nil
  | roomID (RoomID : String)
  | ext (x : X)
  deriving DecidableEq, Repr

/-- The struct `util.JSONResponse`, with the two fields the handler sets. -/
structure JSONResponse (X : Type) where
  Code : Int
  JSON : JSONValue X
  deriving DecidableEq, Repr

/-- The zero value of `util.JSONResponse` (what a receive from a closed and
drained channel yields). -/
def JSONResponse.zero {X : Type} : JSONResponse X := { Code := 0, JSON := .nil }

/-- The constant `http.StatusOK`. -/
def StatusOK : Int := 200

/-- The constant `http.StatusAccepted`. -/
def StatusAccepted : Int := 202

/-- The constant `http.StatusForbidden`. -/
def StatusForbidden : Int := 403

/-- The constant `http.StatusInternalServerError`. -/
def StatusInternalServerError : Int := 500

/-- The constants and functions of other packages that the handler uses and
whose declarations are outside this file.  They are parameters of the
embedding: nothing is assumed about them. -/
structure Imports (X : Type) where
  /-- The constant `api.AccountTypeGuest`. -/
  AccountTypeGuest : Int
  /-- The constant `roomserverAPI.PerformErrorNotAllowed`. -/
  PerformErrorNotAllowed : Int
  /-- The error value `appserviceAPI.ErrProfileNotExists`. -/
  ErrProfileNotExists : GoError
  /-- The function `jsonerror.Unknown`. -/
  Unknown : String → X
  /-- The function `jsonerror.GuestAccessForbidden`. -/
  GuestAccessForbidden : String → X
  /-- The function `jsonerror.InternalAPIError`. -/
  InternalAPIError : Context → GoError → JSONResponse X
  /-- The method `(*PerformError).JSONResponse`. -/
  PerformErrorJSONResponse : PerformError → JSONResponse X

/-- The request body as the decoder sees it. -/
inductive Body where
  /-- No body was sent (the decoder reads zero bytes). -/
  | absent
  /-- Reading the body fails. -/
  | unreadable
  /-- The bytes are not valid UTF-8 or not a JSON document. -/
  | malformed
  /-- The JSON document `null`. -/
  | null
  /-- A JSON object with these top-level members, in document order. -/
  | object (members : List (String × Value))
  /-- Any other JSON document: an array, a string, a number or a boolean. -/
  | nonObject

/-- The parts of `*http.Request` that the handler reads: `req.Context()`,
`req.URL.Query()` (a map from parameter name to the list of its values) and
the body. -/
structure Request where
  ctx : Context
  query : String → Option (List String)
  body : Body

/-- Modelled from the spec: `httputil.UnmarshalJSONRequest` is not among the
sources.  Per the specification a body that parses as a JSON object has its
top-level keys merged into the content, and an absent or unparseable body adds
nothing.  The function decodes with Go `encoding/json` into the map behind the
pointer `&joinReq.Content`; for the cases on which the specification is silent
the documented rules of that package are followed: a JSON object is stored
into the existing map (a new map is allocated if it is nil), JSON `null` sets
the map to nil, and any other JSON value is a type error that leaves the map
as it was.  The `*util.JSONResponse` it returns is discarded at line 60, so
only the effect on the map is modelled. -/
def UnmarshalJSONRequest (body : Body) (content : Content) : Content :=
  match body with
  | .absent => content
  | .unreadable => content
  | .malformed => content
  | .null => none
  | .object members =>
    match content with
    | none => some (Entries.merge (fun _ => none) members)
    | some es => some (Entries.merge es members)
  | .nonObject => content

/-! ## Lines 37 to 78: building the join request -/

/-- How the sequential part of the handler ends. -/
inductive Prepared (X : Type) where
  /-- A run-time panic (no response is produced). -/
  | panicked
  /-- The `return` of line 73: the handler answers at once. -/
  | returned (r : JSONResponse X)
  /-- Line 80 is reached with this join request. -/
  | dispatch (joinReq : PerformJoinRequest)

/-- Lines 48 to 55: the loop appending every `server_name` query value. -/
def appendServerNames (query : String → Option (List String))
    (joinReq : PerformJoinRequest) : PerformJoinRequest :=
  match query "server_name" with
  | some serverNames =>
    serverNames.foldl
      (fun jr serverName => { jr with ServerNames := jr.ServerNames ++ [ServerName.mk serverName] })
      joinReq
  | none => joinReq

/-- Lines 38 to 78 of `JoinRoomByIDOrAlias`.  `QueryProfile` is the method of
the `profileAPI` collaborator; it returns the profile and the error (`none` is
nil). -/
def prepare {X : Type} (I : Imports X) (req : Request) (device : Device)
    (QueryProfile : Context → String → Profile × Option GoError)
    (roomIDOrAlias : String) : Prepared X :=
  let joinReq : PerformJoinRequest :=
    { RoomIDOrAlias := roomIDOrAlias
      UserID := device.UserID
      IsGuest := decide (device.AccountType = I.AccountTypeGuest)
      Content := Content.empty
      ServerNames := [] }
  let joinReq := appendServerNames req.query joinReq
  let joinReq := { joinReq with Content := UnmarshalJSONRequest req.body joinReq.Content }
  let result := QueryProfile req.ctx device.UserID
  let profile := result.1
  match result.2 with
  | none =>
    match joinReq.Content.set "displayname" (.str profile.DisplayName) with
    | none => .panicked
    | some c₁ =>
      match c₁.set "avatar_url" (.str profile.AvatarURL) with
      | none => .panicked
      | some c₂ => .dispatch { joinReq with Content := c₂ }
  | some err =>
    if err = I.ErrProfileNotExists then
      .returned
        { Code := StatusInternalServerError
          JSON := .ext (I.Unknown "Unable to query user profile, no profile found.") }
    else
      .dispatch joinReq

/-! ## Lines 80 to 116: the worker goroutine, the channel and the select -/

/-- A Go channel: its capacity, the values buffered in it (oldest first) and
whether it has been closed. -/
structure Chan (α : Type) where
  cap : Nat
  buf : List α
  closed : Bool
  deriving DecidableEq, Repr

/-- The call `make(chan T, cap)`: an open channel with nothing buffered. -/
def Chan.make {α : Type} (cap : Nat) : Chan α := { cap := cap, buf := [], closed := false }

/-- What a send statement does when no receiver is parked on the channel. -/
inductive SendResult (α : Type) where
  /-- The value was put into the buffer. -/
  | sent (c : Chan α)
  /-- The buffer is full: the sender blocks. -/
  | blocks
  /-- The channel is closed: the send panics. -/
  | panics

/-- The statement `c <- v`. -/
def Chan.send {α : Type} (c : Chan α) (v : α) : SendResult α :=
  if c.closed then .panics
  else if c.buf.length < c.cap then .sent { c with buf := c.buf ++ [v] }
  else .blocks

/-- The call `close(c)`; closing a closed channel panics (`none`). -/
def Chan.close {α : Type} (c : Chan α) : Option (Chan α) :=
  if c.closed then none else some { c with closed := true }

/-- The receive `<-c`: the oldest buffered value; on a closed and drained
channel the zero value; `none` when the receive cannot proceed. -/
def Chan.recv {α : Type} (c : Chan α) (zero : α) : Option (α × Chan α) :=
  match c.buf with
  | v :: rest => some (v, { c with buf := rest })
  | [] => if c.closed then some (zero, c) else none

/-- The duration of line 109, `time.Second * 20`, in seconds. -/
def joinTimeout : Nat := 20

/-- The response of lines 110 to 113. -/
def acceptedResponse {X : Type} (I : Imports X) : JSONResponse X :=
  { Code := StatusAccepted
    JSON := .ext (I.Unknown "The room join will continue in the background.") }

/-- Lines 87 to 94: the response for a join that the roomserver rejected with
`joinRes.Error`. -/
def domainErrorResponse {X : Type} (I : Imports X) (device : Device) (e : PerformError) :
    JSONResponse X :=
  if e.Code = I.PerformErrorNotAllowed ∧ device.AccountType = I.AccountTypeGuest then
    { Code := StatusForbidden
      JSON := .ext (I.GuestAccessForbidden e.Msg) }
  else
    I.PerformErrorJSONResponse e

/-- Lines 84 to 103: the value the goroutine sends on `done`, from the error
returned by `PerformJoin` and the `joinRes` it filled in. -/
def workerResponse {X : Type} (I : Imports X) (ctx : Context) (device : Device)
    (err : Option GoError) (joinRes : PerformJoinResponse) : JSONResponse X :=
  match err with
  | some err => I.InternalAPIError ctx err
  | none =>
    match joinRes.Error with
    | some e => domainErrorResponse I device e
    | none => { Code := StatusOK, JSON := .roomID joinRes.RoomID }

/-- Where the worker goroutine of lines 82 to 104 stands. -/
inductive Worker (X : Type) where
  /-- The `go` statement has run; the body has not started. -/
  | spawned
  /-- The call of `PerformJoin` at line 84 is in progress. -/
  | inPerformJoin
  /-- The call has returned; the send of `v` on `done` is next. -/
  | sending (v : JSONResponse X)
  /-- The body is finished; the deferred `close(done)` is next. -/
  | closing
  /-- The goroutine has ended. -/
  | exited
  /-- The goroutine panicked on a channel operation. -/
  | panicked
  deriving DecidableEq, Repr

/-- Where the handler stands from line 108 on. -/
inductive Handler (X : Type) where
  /-- In the `select` of line 108. -/
  | selecting
  /-- Returned with this response. -/
  | returned (r : JSONResponse X)
  deriving DecidableEq, Repr

/-- The state of the concurrent part of the handler. -/
structure State (X : Type) where
  handler : Handler X
  worker : Worker X
  /-- The channel `done` of line 81. -/
  done : Chan (JSONResponse X)
  /-- Seconds gone by since the timer of line 109 was created. -/
  elapsed : Nat
  /-- The calls of `PerformJoin` made so far, with the context handed over. -/
  calls : List (Context × PerformJoinRequest)
  /-- The values sent on `done` so far. -/
  sends : List (JSONResponse X)

/-- The state after line 81 and the `go` statement of line 82. -/
def State.init {X : Type} : State X :=
  { handler := .selecting
    worker := .spawned
    done := Chan.make 1
    elapsed := 0
    calls := []
    sends := [] }

/-- The two cases of the `select`, in source order. -/
inductive SelectCase where
  | timer
  | done
  deriving DecidableEq, Repr

/-- What the scheduler may do next: let the worker goroutine take its next
step, let one second go by, or let the handler evaluate its `select`; `pick`
is the case the runtime picks when both can proceed.  A handler parked in its
`select` is woken by the first case that becomes ready: that is a schedule in
which the `select` event comes right after the event that made the case
ready.  Schedules that let the handler wait longer are executions of a
handler goroutine that is slow to be scheduled. -/
inductive Event where
  | worker
  | tick
  | select (pick : SelectCase)
  deriving DecidableEq, Repr

/-- The `select` of lines 108 to 116.  With no case ready it blocks (`none`);
with one case ready that case runs; with both ready the runtime picks one. -/
def selectStep {X : Type} (I : Imports X) (timerReady : Bool) (done : Chan (JSONResponse X))
    (pick : SelectCase) : Option (JSONResponse X × Chan (JSONResponse X)) :=
  match timerReady, done.recv JSONResponse.zero with
  | false, none => none
  | true, none => some (acceptedResponse I, done)
  | false, some (result, c) => some (result, c)
  | true, some (result, c) =>
    match pick with
    | .timer => some (acceptedResponse I, done)
    | .done => some (result, c)

/-- One step of the worker goroutine.  `PerformJoin` is the method of the
`rsAPI` collaborator: from the context, the join request and the response
struct it is handed, it gives the response struct as it left it and the error
it returned. -/
def workerStep {X : Type} (I : Imports X) (ctx : Context) (device : Device)
    (PerformJoin : Context → PerformJoinRequest → PerformJoinResponse →
      PerformJoinResponse × Option GoError)
    (joinReq : PerformJoinRequest) (st : State X) : State X :=
  match st.worker with
  | .spawned => { st with worker := .inPerformJoin, calls := st.calls ++ [(ctx, joinReq)] }
  | .inPerformJoin =>
    let res := PerformJoin ctx joinReq PerformJoinResponse.zero
    { st with worker := .sending (workerResponse I ctx device res.2 res.1) }
  | .sending v =>
    match st.done.send v with
    | .sent c => { st with worker := .closing, done := c, sends := st.sends ++ [v] }
    | .blocks => st
    | .panics => { st with worker := .panicked }
  | .closing =>
    match st.done.close with
    | some c => { st with worker := .exited, done := c }
    | none => { st with worker := .panicked }
  | .exited => st
  | .panicked => st

/-- One step of the concurrent part under the given event. -/
def step {X : Type} (I : Imports X) (ctx : Context) (device : Device)
    (PerformJoin : Context → PerformJoinRequest → PerformJoinResponse →
      PerformJoinResponse × Option GoError)
    (joinReq : PerformJoinRequest) (st : State X) (ev : Event) : State X :=
  match ev with
  | .worker => workerStep I ctx device PerformJoin joinReq st
  | .tick => { st with elapsed := st.elapsed + 1 }
  | .select pick =>
    match st.handler with
    | .selecting =>
      match selectStep I (decide (joinTimeout ≤ st.elapsed)) st.done pick with
      | none => st
      | some (result, c) => { st with handler := .returned result, done := c }
    | .returned _ => st

/-- The concurrent part run under a schedule. -/
def run {X : Type} (I : Imports X) (ctx : Context) (device : Device)
    (PerformJoin : Context → PerformJoinRequest → PerformJoinResponse →
      PerformJoinResponse × Option GoError)
    (joinReq : PerformJoinRequest) (sched : List Event) : State X :=
  sched.foldl (step I ctx device PerformJoin joinReq) State.init

/-- What an execution of the handler has come to. -/
inductive Outcome (X : Type) where
  /-- The handler panicked before line 80. -/
  | panicked
  /-- The handler returned at line 73; no goroutine was started. -/
  | returnedEarly (r : JSONResponse X)
  /-- The handler reached line 80; this is the state of the race. -/
  | raced (st : State X)

/-- The function `JoinRoomByIDOrAlias`, executed under the schedule `sched`.
The arguments `rsAPI` and `profileAPI` are given by their methods
`PerformJoin` and `QueryProfile`. -/
def JoinRoomByIDOrAlias {X : Type} (I : Imports X) (req : Request) (device : Device)
    (PerformJoin : Context → PerformJoinRequest → PerformJoinResponse →
      PerformJoinResponse × Option GoError)
    (QueryProfile : Context → String → Profile × Option GoError)
    (roomIDOrAlias : String) (sched : List Event) : Outcome X :=
  match prepare I req device QueryProfile roomIDOrAlias with
  | .panicked => .panicked
  | .returned r => .returnedEarly r
  | .dispatch joinReq => .raced (run I req.ctx device PerformJoin joinReq sched)

/-- The response the handler has returned, if it has returned. -/
def Outcome.response {X : Type} (o : Outcome X) : Option (JSONResponse X) :=
  match o with
  | .panicked => none
  | .returnedEarly r => some r
  | .raced st =>
    match st.handler with
    | .selecting => none
    | .returned r => some r

/-- The calls of `PerformJoin` made in the execution. -/
def Outcome.calls {X : Type} (o : Outcome X) : List (Context × PerformJoinRequest) :=
  match o with
  | .panicked => []
  | .returnedEarly _ => []
  | .raced st => st.calls

/-- Whether a worker goroutine was started. -/
def Outcome.workerStarted {X : Type} (o : Outcome X) : Bool :=
  match o with
  | .panicked => false
  | .returnedEarly _ => false
  | .raced _ => true

/-- Whether the handler panicked. -/
def Outcome.hasPanicked {X : Type} (o : Outcome X) : Bool :=
  match o with
  | .panicked => true
  | .returnedEarly _ => false
  | .raced _ => false

/-- Whether the handler is waiting in its `select`. -/
def Outcome.waiting {X : Type} (o : Outcome X) : Bool :=
  match o with
  | .raced st =>
    match st.handler with
    | .selecting => true
    | .returned _ => false
  | _ => false

/-- Whether the worker has delivered: `done` holds a value. -/
def Outcome.delivered {X : Type} (o : Outcome X) : Bool :=
  match o with
  | .raced st => !st.done.buf.isEmpty
  | _ => false

/-- Whether the deadline has passed: the timer of line 109 has fired. -/
def Outcome.deadlineFired {X : Type} (o : Outcome X) : Bool :=
  match o with
  | .raced st => decide (joinTimeout ≤ st.elapsed)
  | _ => false

/-- Seconds gone by on the timer of line 109 (zero when no timer was made). -/
def Outcome.elapsed {X : Type} (o : Outcome X) : Nat :=
  match o with
  | .raced st => st.elapsed
  | _ => 0

/-- The values the worker has sent on `done`. -/
def Outcome.sends {X : Type} (o : Outcome X) : List (JSONResponse X) :=
  match o with
  | .raced st => st.sends
  | _ => []

/-- The values that sit in the buffer of `done`. -/
def Outcome.buffered {X : Type} (o : Outcome X) : List (JSONResponse X) :=
  match o with
  | .raced st => st.done.buf
  | _ => []

/-- Whether the request body is a JSON object with the top-level key `k`. -/
def Body.hasKey (body : Body) (k : String) : Bool :=
  match body with
  | .object members => members.any (fun kv => kv.1 == k)
  | _ => false

/-! ## Reachable states of the race -/

/-- Where the worker stands after it has taken `n` steps, when the value it
computes is `w`. -/
def workerAfter {X : Type} (w : JSONResponse X) : Nat → Worker X
  | 0 => .spawned
  | 1 => .inPerformJoin
  | 2 => .sending w
  | 3 => .closing
  | _ => .exited

/-- The number of times the schedule lets the worker take a step. -/
def workerEvents (sched : List Event) : Nat := sched.count Event.worker

/-- The value the worker of a request computes: lines 84 to 103 applied to
what `PerformJoin` returns for the join request. -/
def workerValue {X : Type} (I : Imports X) (ctx : Context) (device : Device)
    (PerformJoin : Context → PerformJoinRequest → PerformJoinResponse →
      PerformJoinResponse × Option GoError)
    (joinReq : PerformJoinRequest) : JSONResponse X :=
  workerResponse I ctx device (PerformJoin ctx joinReq PerformJoinResponse.zero).2
    (PerformJoin ctx joinReq PerformJoinResponse.zero).1

/-- The facts that hold of every state of the race in which the worker has
taken `n` steps; `w` is the value the worker computes. -/
structure Inv {X : Type} (I : Imports X) (ctx : Context) (joinReq : PerformJoinRequest)
    (w : JSONResponse X) (n : Nat) (st : State X) : Prop where
  worker : st.worker = workerAfter w n
  calls : st.calls = if 1 ≤ n then [(ctx, joinReq)] else []
  sends : st.sends = if 3 ≤ n then [w] else []
  cap : st.done.cap = 1
  closed : st.done.closed = decide (4 ≤ n)
  buf : st.done.buf = [] ∨ st.done.buf = [w]
  bufEarly : n < 3 → st.done.buf = []
  bufWaiting : st.handler = .selecting → 3 ≤ n → st.done.buf = [w]
  returned : ∀ r, st.handler = .returned r →
    r = w ∨ (r = acceptedResponse I ∧ joinTimeout ≤ st.elapsed)

/-! ## Sample collaborators and inputs

Concrete values for the parameters, on which the handler is run. -/

/-- Sample values for the results of package `jsonerror`. -/
inductive SampleError where
  | unknown (msg : String)
  | guestAccessForbidden (msg : String)
  | forbidden (msg : String)
  | internalServerError
  deriving DecidableEq, Repr

/-- A sample instantiation of the imported constants and functions. -/
def sampleImports : Imports SampleError :=
  { AccountTypeGuest := 2
    PerformErrorNotAllowed := 1
    ErrProfileNotExists := ⟨1⟩
    Unknown := .unknown
    GuestAccessForbidden := .guestAccessForbidden
    InternalAPIError := fun _ _ => { Code := 500, JSON := .ext .internalServerError }
    PerformErrorJSONResponse := fun e => { Code := 403, JSON := .ext (.forbidden e.Msg) } }

/-- A request with the given body and the given `server_name` query values. -/
def sampleRequest (body : Body) (serverNames : Option (List String)) : Request :=
  { ctx := ⟨1⟩
    query := fun k => if k = "server_name" then serverNames else none
    body := body }

/-- A regular user. -/
def alice : Device := { UserID := "@alice:example.org", AccountType := 1 }

/-- A guest user. -/
def guest : Device := { UserID := "@guest:example.org", AccountType := 2 }

/-- The profile of the sample user. -/
def aliceProfile : Profile := { DisplayName := "Alice", AvatarURL := "mxc://example.org/alice" }

/-- A profile API whose lookup succeeds. -/
def profileFound : Context → String → Profile × Option GoError :=
  fun _ _ => (aliceProfile, none)

/-- A profile API that reports `ErrProfileNotExists` of `sampleImports`. -/
def profileMissing : Context → String → Profile × Option GoError :=
  fun _ _ => ({ DisplayName := "", AvatarURL := "" }, some ⟨1⟩)

/-- A profile API that fails with another error. -/
def profileDown : Context → String → Profile × Option GoError :=
  fun _ _ => ({ DisplayName := "", AvatarURL := "" }, some ⟨7⟩)

/-- A roomserver whose join succeeds. -/
def joinSucceeds : Context → PerformJoinRequest → PerformJoinResponse →
    PerformJoinResponse × Option GoError :=
  fun _ _ res => ({ res with RoomID := "!abc123:example.org" }, none)

/-- A roomserver that rejects the join as not allowed. -/
def joinNotAllowed : Context → PerformJoinRequest → PerformJoinResponse →
    PerformJoinResponse × Option GoError :=
  fun _ _ res => ({ res with Error := some { Code := 1, Msg := "room is invite-only" } }, none)

/-- A roomserver whose call fails. -/
def joinFails : Context → PerformJoinRequest → PerformJoinResponse →
    PerformJoinResponse × Option GoError :=
  fun _ _ res => (res, some ⟨9⟩)

/-- The join request the handler builds for `alice`, an absent body, no
`server_name` values and the profile `aliceProfile`. -/
def aliceJoinReq : PerformJoinRequest :=
  { RoomIDOrAlias := "#foo:example.org"
    UserID := "@alice:example.org"
    IsGuest := false
    Content :=
      some (fun k' => if k' = "avatar_url" then some (.str "mxc://example.org/alice")
        else if k' = "displayname" then some (.str "Alice") else none)
    ServerNames := [] }

/-- A schedule in which twenty seconds go by. -/
def twentySeconds : List Event := List.replicate 20 Event.tick

/-! ## Lemmas on the race -/

section Race

variable {X : Type} (I : Imports X) (ctx : Context) (device : Device)
  (PerformJoin : Context → PerformJoinRequest → PerformJoinResponse →
    PerformJoinResponse × Option GoError)
  (joinReq : PerformJoinRequest)

theorem inv_init (w : JSONResponse X) : Inv I ctx joinReq w 0 (State.init : State X) := by
  constructor <;> simp [State.init, Chan.make, workerAfter]

theorem inv_workerStep (n : Nat) (st : State X)
    (h : Inv I ctx joinReq (workerValue I ctx device PerformJoin joinReq) n st) :
    Inv I ctx joinReq (workerValue I ctx device PerformJoin joinReq) (n + 1)
      (workerStep I ctx device PerformJoin joinReq st) := by
  obtain ⟨hw, hc, hs, hcap, hcl, hb, hbe, hbw, hr⟩ := h
  rcases n with _ | _ | _ | _ | n
  · simp only [workerAfter] at hw
    constructor <;> simp_all [workerStep, workerAfter]
  · simp only [workerAfter] at hw
    constructor <;> simp_all [workerStep, workerAfter, workerValue]
  · simp only [workerAfter] at hw
    have hb0 : st.done.buf = [] := hbe (by omega)
    have hcl0 : st.done.closed = false := by simpa using hcl
    have hsend : st.done.send (workerValue I ctx device PerformJoin joinReq)
        = .sent { st.done with buf := [workerValue I ctx device PerformJoin joinReq] } := by
      simp [Chan.send, hcl0, hb0, hcap]
    constructor <;> simp_all [workerStep, workerAfter]
  · simp only [workerAfter] at hw
    have hcl0 : st.done.closed = false := by simpa using hcl
    constructor <;> simp_all [workerStep, workerAfter, Chan.close]
  · simp only [workerAfter] at hw
    constructor <;> simp_all [workerStep, workerAfter]

theorem inv_tick (w : JSONResponse X) (n : Nat) (st : State X)
    (h : Inv I ctx joinReq w n st) :
    Inv I ctx joinReq w n { st with elapsed := st.elapsed + 1 } := by
  obtain ⟨hw, hc, hs, hcap, hcl, hb, hbe, hbw, hr⟩ := h
  refine ⟨hw, hc, hs, hcap, hcl, hb, hbe, hbw, ?_⟩
  intro r hret
  rcases hr r hret with h1 | ⟨h1, h2⟩
  · exact Or.inl h1
  · exact Or.inr ⟨h1, Nat.le_succ_of_le h2⟩

/-- In a reachable state a receive from `done` can proceed exactly when a value
is buffered, and it yields that value. -/
theorem inv_recv (w : JSONResponse X) (n : Nat) (st : State X)
    (h : Inv I ctx joinReq w n st) (hsel : st.handler = .selecting) :
    (st.done.buf = [] ∧ st.done.recv JSONResponse.zero = none) ∨
    (st.done.buf = [w] ∧
      st.done.recv JSONResponse.zero = some (w, { st.done with buf := [] })) := by
  obtain ⟨hw, hc, hs, hcap, hcl, hb, hbe, hbw, hr⟩ := h
  rcases hb with hb | hb
  · left
    refine ⟨hb, ?_⟩
    have hn : ¬ 3 ≤ n := by
      intro h3
      have := hbw hsel h3
      simp [hb] at this
    have hcl0 : st.done.closed = false := by
      rw [hcl]
      simp
      omega
    simp [Chan.recv, hb, hcl0]
  · right
    exact ⟨hb, by simp [Chan.recv, hb]⟩

/-- The step of the handler in its `select`, written out by which cases are
ready. -/
theorem step_select (st : State X) (pick : SelectCase) (hsel : st.handler = .selecting) :
    step I ctx device PerformJoin joinReq st (.select pick) =
      match decide (joinTimeout ≤ st.elapsed), st.done.recv JSONResponse.zero with
      | false, none => st
      | true, none => { st with handler := .returned (acceptedResponse I) }
      | false, some (result, c) => { st with handler := .returned result, done := c }
      | true, some (result, c) =>
        match pick with
        | .timer => { st with handler := .returned (acceptedResponse I) }
        | .done => { st with handler := .returned result, done := c } := by
  simp only [step, hsel, selectStep]
  cases decide (joinTimeout ≤ st.elapsed) <;> cases st.done.recv JSONResponse.zero with
  | none => rfl
  | some p =>
    first
    | rfl
    | (cases pick <;> rfl)

theorem inv_select (w : JSONResponse X) (n : Nat) (st : State X) (pick : SelectCase)
    (h : Inv I ctx joinReq w n st) :
    Inv I ctx joinReq w n (step I ctx device PerformJoin joinReq st (.select pick)) := by
  cases hsel : st.handler with
  | returned r => simpa [step, hsel] using h
  | selecting =>
    have hrecv := inv_recv I ctx joinReq w n st h hsel
    rw [step_select I ctx device PerformJoin joinReq st pick hsel]
    obtain ⟨hw, hc, hs, hcap, hcl, hb, hbe, hbw, hr⟩ := h
    have hacc : ∀ r, Handler.returned (acceptedResponse I) = Handler.returned r →
        joinTimeout ≤ st.elapsed →
        r = w ∨ (r = acceptedResponse I ∧ joinTimeout ≤ st.elapsed) := by
      intro r hr ht
      injection hr with hr
      exact Or.inr ⟨hr.symm, ht⟩
    have hdel : ∀ r, Handler.returned w = Handler.returned r →
        r = w ∨ (r = acceptedResponse I ∧ joinTimeout ≤ st.elapsed) := by
      intro r hr
      injection hr with hr
      exact Or.inl hr.symm
    by_cases ht : joinTimeout ≤ st.elapsed
    · have hd : decide (joinTimeout ≤ st.elapsed) = true := by simpa using ht
      rcases hrecv with ⟨hb0, hrv⟩ | ⟨hb1, hrv⟩
      · rw [hd, hrv]
        exact ⟨hw, hc, hs, hcap, hcl, hb, hbe, (fun h => by cases h), fun r h => hacc r h ht⟩
      · rw [hd, hrv]
        cases pick
        · exact ⟨hw, hc, hs, hcap, hcl, hb, hbe, (fun h => by cases h), fun r h => hacc r h ht⟩
        · exact ⟨hw, hc, hs, hcap, hcl, Or.inl rfl, fun _ => rfl, (fun h => by cases h), hdel⟩
    · have hd : decide (joinTimeout ≤ st.elapsed) = false := by simpa using ht
      rcases hrecv with ⟨hb0, hrv⟩ | ⟨hb1, hrv⟩
      · rw [hd, hrv]
        exact ⟨hw, hc, hs, hcap, hcl, hb, hbe, hbw, hr⟩
      · rw [hd, hrv]
        exact ⟨hw, hc, hs, hcap, hcl, Or.inl rfl, fun _ => rfl, (fun h => by cases h), hdel⟩

theorem inv_step (n : Nat) (st : State X) (ev : Event)
    (h : Inv I ctx joinReq (workerValue I ctx device PerformJoin joinReq) n st) :
    Inv I ctx joinReq (workerValue I ctx device PerformJoin joinReq)
      (n + workerEvents [ev]) (step I ctx device PerformJoin joinReq st ev) := by
  cases ev with
  | worker => exact inv_workerStep I ctx device PerformJoin joinReq n st h
  | tick => exact inv_tick I ctx joinReq _ n st h
  | select pick => exact inv_select I ctx device PerformJoin joinReq _ n st pick h

theorem inv_foldl (sched : List Event) (n : Nat) (st : State X)
    (h : Inv I ctx joinReq (workerValue I ctx device PerformJoin joinReq) n st) :
    Inv I ctx joinReq (workerValue I ctx device PerformJoin joinReq)
      (n + workerEvents sched)
      (sched.foldl (step I ctx device PerformJoin joinReq) st) := by
  induction sched generalizing n st with
  | nil => simpa [workerEvents] using h
  | cons ev rest ih =>
    have h1 := inv_step I ctx device PerformJoin joinReq n st ev h
    have h2 := ih _ _ h1
    have hcount : n + workerEvents [ev] + workerEvents rest = n + workerEvents (ev :: rest) := by
      simp only [workerEvents, List.count_cons, List.count_nil]
      omega
    rw [hcount] at h2
    simpa using h2

/-- Every state the race reaches satisfies the invariant, with the number of
worker events of the schedule as the number of steps the worker has taken. -/
theorem inv_run (sched : List Event) :
    Inv I ctx joinReq (workerValue I ctx device PerformJoin joinReq) (workerEvents sched)
      (run I ctx device PerformJoin joinReq sched) := by
  have h := inv_foldl I ctx device PerformJoin joinReq sched 0 State.init
    (inv_init I ctx joinReq _)
  simpa [run] using h

theorem run_append (sched : List Event) (ev : Event) :
    run I ctx device PerformJoin joinReq (sched ++ [ev])
      = step I ctx device PerformJoin joinReq (run I ctx device PerformJoin joinReq sched) ev := by
  simp [run, List.foldl_append]

/-- Once the handler has returned, no event changes what it returned. -/
theorem returned_foldl (sched : List Event) (st : State X) (r : JSONResponse X)
    (h : st.handler = .returned r) :
    (sched.foldl (step I ctx device PerformJoin joinReq) st).handler = .returned r := by
  induction sched generalizing st with
  | nil => simpa using h
  | cons ev rest ih =>
    apply ih
    cases ev with
    | worker =>
      simp only [step, workerStep]
      split
      · exact h
      · exact h
      · split <;> exact h
      · split <;> exact h
      · exact h
      · exact h
    | tick => exact h
    | select pick => simp [step, h]

/-- What the handler has come to after its `select` is evaluated in a state
where it was waiting, by which cases are ready. -/
theorem select_handler (sched : List Event) (pick : SelectCase)
    (hsel : (run I ctx device PerformJoin joinReq sched).handler = .selecting) :
    (run I ctx device PerformJoin joinReq (sched ++ [.select pick])).handler =
      match decide (joinTimeout ≤ (run I ctx device PerformJoin joinReq sched).elapsed),
        (run I ctx device PerformJoin joinReq sched).done.buf.isEmpty with
      | false, true => .selecting
      | true, true => .returned (acceptedResponse I)
      | false, false => .returned (workerValue I ctx device PerformJoin joinReq)
      | true, false =>
        match pick with
        | .timer => .returned (acceptedResponse I)
        | .done => .returned (workerValue I ctx device PerformJoin joinReq) := by
  rw [run_append, step_select I ctx device PerformJoin joinReq _ pick hsel]
  have hinv := inv_run I ctx device PerformJoin joinReq sched
  rcases inv_recv I ctx joinReq _ _ _ hinv hsel with ⟨hb, hrv⟩ | ⟨hb, hrv⟩
  · rw [hrv, hb]
    cases decide (joinTimeout ≤ (run I ctx device PerformJoin joinReq sched).elapsed)
    · simpa using hsel
    · simp
  · rw [hrv, hb]
    cases decide (joinTimeout ≤ (run I ctx device PerformJoin joinReq sched).elapsed)
    · simp
    · cases pick <;> simp

end Race

section Handler

variable {X : Type} (I : Imports X) (req : Request) (device : Device)
  (PerformJoin : Context → PerformJoinRequest → PerformJoinResponse →
    PerformJoinResponse × Option GoError)
  (QueryProfile : Context → String → Profile × Option GoError)
  (roomIDOrAlias : String)

theorem outcome_of_dispatch (joinReq : PerformJoinRequest) (sched : List Event)
    (h : prepare I req device QueryProfile roomIDOrAlias = .dispatch joinReq) :
    JoinRoomByIDOrAlias I req device PerformJoin QueryProfile roomIDOrAlias sched
      = .raced (run I req.ctx device PerformJoin joinReq sched) := by
  simp [JoinRoomByIDOrAlias, h]

/-- A handler that waits in its `select` has built a join request. -/
theorem dispatch_of_waiting (sched : List Event)
    (h : (JoinRoomByIDOrAlias I req device PerformJoin QueryProfile roomIDOrAlias
      sched).waiting = true) :
    ∃ joinReq, prepare I req device QueryProfile roomIDOrAlias = .dispatch joinReq := by
  unfold JoinRoomByIDOrAlias at h
  cases hp : prepare I req device QueryProfile roomIDOrAlias with
  | panicked => simp [hp, Outcome.waiting] at h
  | returned r => simp [hp, Outcome.waiting] at h
  | dispatch joinReq => exact ⟨joinReq, rfl⟩

theorem selecting_of_waiting (st : State X) (h : (Outcome.raced st).waiting = true) :
    st.handler = .selecting := by
  cases hh : st.handler with
  | selecting => rfl
  | returned r => simp [Outcome.waiting, hh] at h

/-- The response after the `select` is evaluated in a state where the handler
was waiting, by which cases are ready. -/
theorem select_response (joinReq : PerformJoinRequest) (sched : List Event) (pick : SelectCase)
    (hprep : prepare I req device QueryProfile roomIDOrAlias = .dispatch joinReq)
    (hwait : (JoinRoomByIDOrAlias I req device PerformJoin QueryProfile roomIDOrAlias
      sched).waiting = true) :
    (JoinRoomByIDOrAlias I req device PerformJoin QueryProfile roomIDOrAlias
      (sched ++ [.select pick])).response =
      match (JoinRoomByIDOrAlias I req device PerformJoin QueryProfile roomIDOrAlias
          sched).deadlineFired,
        (JoinRoomByIDOrAlias I req device PerformJoin QueryProfile roomIDOrAlias
          sched).delivered with
      | false, false => none
      | true, false => some (acceptedResponse I)
      | false, true => some (workerValue I req.ctx device PerformJoin joinReq)
      | true, true =>
        match pick with
        | .timer => some (acceptedResponse I)
        | .done => some (workerValue I req.ctx device PerformJoin joinReq) := by
  rw [outcome_of_dispatch I req device PerformJoin QueryProfile roomIDOrAlias joinReq _ hprep]
    at hwait ⊢
  rw [outcome_of_dispatch I req device PerformJoin QueryProfile roomIDOrAlias joinReq _ hprep]
  have hsel := selecting_of_waiting _ hwait
  have h := select_handler I req.ctx device PerformJoin joinReq sched pick hsel
  simp only [Outcome.response, Outcome.deadlineFired, Outcome.delivered, h]
  cases decide (joinTimeout ≤ (run I req.ctx device PerformJoin joinReq sched).elapsed) <;>
    cases (run I req.ctx device PerformJoin joinReq sched).done.buf.isEmpty <;>
    first
    | rfl
    | (cases pick <;> rfl)

/-- Once the handler has returned a response, the response stays whatever
happens later. -/
theorem response_stable (sched later : List Event) (r : JSONResponse X)
    (h : (JoinRoomByIDOrAlias I req device PerformJoin QueryProfile roomIDOrAlias
      sched).response = some r) :
    (JoinRoomByIDOrAlias I req device PerformJoin QueryProfile roomIDOrAlias
      (sched ++ later)).response = some r := by
  unfold JoinRoomByIDOrAlias at h ⊢
  cases hp : prepare I req device QueryProfile roomIDOrAlias with
  | panicked => simp [hp, Outcome.response] at h
  | returned r0 => simpa [hp, Outcome.response] using h
  | dispatch joinReq =>
    simp only [hp, Outcome.response] at h ⊢
    cases hh : (run I req.ctx device PerformJoin joinReq sched).handler with
    | selecting => simp [hh] at h
    | returned r1 =>
      simp only [hh, Option.some.injEq] at h
      subst h
      have := returned_foldl I req.ctx device PerformJoin joinReq later _ r1 hh
      simp only [run, List.foldl_append] at this ⊢
      simp [this]

/-- The race of a dispatched request is in a state that satisfies the
invariant. -/
theorem outcome_inv (joinReq : PerformJoinRequest) (sched : List Event)
    (h : prepare I req device QueryProfile roomIDOrAlias = .dispatch joinReq) :
    ∃ st, JoinRoomByIDOrAlias I req device PerformJoin QueryProfile roomIDOrAlias sched
        = .raced st ∧
      Inv I req.ctx joinReq (workerValue I req.ctx device PerformJoin joinReq)
        (workerEvents sched) st :=
  ⟨_, outcome_of_dispatch I req device PerformJoin QueryProfile roomIDOrAlias joinReq sched h,
    inv_run I req.ctx device PerformJoin joinReq sched⟩

/-- Every call of `PerformJoin` carries the context of the request and the
join request built by the sequential part. -/
theorem call_mem (sched : List Event) (call : Context × PerformJoinRequest)
    (h : call ∈ (JoinRoomByIDOrAlias I req device PerformJoin QueryProfile roomIDOrAlias
      sched).calls) :
    ∃ joinReq, prepare I req device QueryProfile roomIDOrAlias = .dispatch joinReq ∧
      call = (req.ctx, joinReq) := by
  cases hp : prepare I req device QueryProfile roomIDOrAlias with
  | panicked => simp [JoinRoomByIDOrAlias, hp, Outcome.calls] at h
  | returned r => simp [JoinRoomByIDOrAlias, hp, Outcome.calls] at h
  | dispatch joinReq =>
    refine ⟨joinReq, rfl, ?_⟩
    obtain ⟨st, hst, hinv⟩ :=
      outcome_inv I req device PerformJoin QueryProfile roomIDOrAlias joinReq sched hp
    rw [hst] at h
    simp only [Outcome.calls, hinv.calls] at h
    split at h
    · simpa using h
    · simp at h

/-- The call of `PerformJoin` is made as soon as the worker has taken a step. -/
theorem calls_of_dispatch (joinReq : PerformJoinRequest) (sched : List Event)
    (h : prepare I req device QueryProfile roomIDOrAlias = .dispatch joinReq) :
    (JoinRoomByIDOrAlias I req device PerformJoin QueryProfile roomIDOrAlias sched).calls
      = if 1 ≤ workerEvents sched then [(req.ctx, joinReq)] else [] := by
  obtain ⟨st, hst, hinv⟩ :=
    outcome_inv I req device PerformJoin QueryProfile roomIDOrAlias joinReq sched h
  rw [hst]
  exact hinv.calls

/-- The timer has fired exactly when twenty seconds have gone by. -/
theorem deadlineFired_iff (o : Outcome X) :
    o.deadlineFired = decide (20 ≤ o.elapsed) := by
  cases o <;> simp [Outcome.deadlineFired, Outcome.elapsed, joinTimeout]

/-- A value that sits in `done` while the handler waits is the value the
worker computed, and it is the only one. -/
theorem buffered_of_delivered (joinReq : PerformJoinRequest) (sched : List Event)
    (hprep : prepare I req device QueryProfile roomIDOrAlias = .dispatch joinReq)
    (hdel : (JoinRoomByIDOrAlias I req device PerformJoin QueryProfile roomIDOrAlias
      sched).delivered = true) :
    (JoinRoomByIDOrAlias I req device PerformJoin QueryProfile roomIDOrAlias sched).buffered
      = [workerValue I req.ctx device PerformJoin joinReq] := by
  obtain ⟨st, hst, hinv⟩ :=
    outcome_inv I req device PerformJoin QueryProfile roomIDOrAlias joinReq sched hprep
  rw [hst] at hdel ⊢
  simp only [Outcome.delivered, Outcome.buffered] at hdel ⊢
  rcases hinv.buf with hb | hb
  · simp [hb] at hdel
  · exact hb

end Handler

/-! ## The claims -/

/-- C1, refuted as stated: the worker of a guest delivers its result (the
403 of a refused guest) before any time has gone by, the handler evaluates its
`select` only after the twenty seconds, the timer case is picked, and the
handler returns 202 instead of the delivered response. -/
theorem delivered_early_may_return_accepted :
    (JoinRoomByIDOrAlias sampleImports (sampleRequest .absent none) guest joinNotAllowed
        profileFound "#foo:example.org" [Event.worker, Event.worker, Event.worker]).sends
      = [{ Code := 403, JSON := .ext (.guestAccessForbidden "room is invite-only") }]
    ∧ (JoinRoomByIDOrAlias sampleImports (sampleRequest .absent none) guest joinNotAllowed
        profileFound "#foo:example.org" [Event.worker, Event.worker, Event.worker]).elapsed = 0
    ∧ (JoinRoomByIDOrAlias sampleImports (sampleRequest .absent none) guest joinNotAllowed
        profileFound "#foo:example.org"
        ([Event.worker, Event.worker, Event.worker] ++ twentySeconds
          ++ [Event.select .timer])).response
      = some { Code := 202
               JSON := .ext (.unknown "The room join will continue in the background.") } :=
  ⟨rfl, rfl, rfl⟩

/-- C1, amended: when, at the time the handler evaluates its `select`, the
result of the worker sits in `done` and fewer than 20 seconds have gone by on
the timer, the handler returns exactly the value that sits in `done`, whatever
the `select` would pick, and that value is: the internal-error response built
from `err` when `PerformJoin` returned an error; status 200 with
`room_id = joinRes.RoomID` when `err` and `joinRes.Error` are nil; status 403
with the guest payload carrying `joinRes.Error.Msg` when the error code is
`PerformErrorNotAllowed` and the device is a guest; and
`joinRes.Error.JSONResponse()` for every other domain error. -/
theorem delivered_before_deadline_returns_worker_response {X : Type} (I : Imports X)
    (req : Request) (device : Device)
    (PerformJoin : Context → PerformJoinRequest → PerformJoinResponse →
      PerformJoinResponse × Option GoError)
    (QueryProfile : Context → String → Profile × Option GoError)
    (roomIDOrAlias : String) (joinReq : PerformJoinRequest) (sched : List Event)
    (pick : SelectCase)
    (hprep : prepare I req device QueryProfile roomIDOrAlias = .dispatch joinReq)
    (hwait : (JoinRoomByIDOrAlias I req device PerformJoin QueryProfile roomIDOrAlias
      sched).waiting = true)
    (hdel : (JoinRoomByIDOrAlias I req device PerformJoin QueryProfile roomIDOrAlias
      sched).delivered = true)
    (hel : (JoinRoomByIDOrAlias I req device PerformJoin QueryProfile roomIDOrAlias
      sched).elapsed < 20) :
    ∃ r, (JoinRoomByIDOrAlias I req device PerformJoin QueryProfile roomIDOrAlias
          sched).buffered = [r]
      ∧ (JoinRoomByIDOrAlias I req device PerformJoin QueryProfile roomIDOrAlias
          (sched ++ [Event.select pick])).response = some r
      ∧ (∀ err, (PerformJoin req.ctx joinReq PerformJoinResponse.zero).2 = some err →
          r = I.InternalAPIError req.ctx err)
      ∧ ((PerformJoin req.ctx joinReq PerformJoinResponse.zero).2 = none →
          (PerformJoin req.ctx joinReq PerformJoinResponse.zero).1.Error = none →
          r = { Code := 200
                JSON := .roomID (PerformJoin req.ctx joinReq PerformJoinResponse.zero).1.RoomID })
      ∧ (∀ e, (PerformJoin req.ctx joinReq PerformJoinResponse.zero).2 = none →
          (PerformJoin req.ctx joinReq PerformJoinResponse.zero).1.Error = some e →
          e.Code = I.PerformErrorNotAllowed → device.AccountType = I.AccountTypeGuest →
          r = { Code := 403, JSON := .ext (I.GuestAccessForbidden e.Msg) })
      ∧ (∀ e, (PerformJoin req.ctx joinReq PerformJoinResponse.zero).2 = none →
          (PerformJoin req.ctx joinReq PerformJoinResponse.zero).1.Error = some e →
          ¬ (e.Code = I.PerformErrorNotAllowed ∧ device.AccountType = I.AccountTypeGuest) →
          r = I.PerformErrorJSONResponse e) := by
  have hdl : (JoinRoomByIDOrAlias I req device PerformJoin QueryProfile roomIDOrAlias
      sched).deadlineFired = false := by
    rw [deadlineFired_iff]
    simpa using hel
  refine ⟨workerValue I req.ctx device PerformJoin joinReq,
    buffered_of_delivered I req device PerformJoin QueryProfile roomIDOrAlias joinReq sched
      hprep hdel, ?_, ?_, ?_, ?_, ?_⟩
  · rw [select_response I req device PerformJoin QueryProfile roomIDOrAlias joinReq sched pick
      hprep hwait, hdel, hdl]
  · intro err herr
    simp [workerValue, workerResponse, herr]
  · intro herr hnone
    simp [workerValue, workerResponse, herr, hnone, StatusOK]
  · intro e herr hsome hc hg
    simp [workerValue, workerResponse, herr, hsome, domainErrorResponse, hc, hg,
      StatusForbidden]
  · intro e herr hsome hng
    simp only [workerValue, workerResponse, herr, hsome, domainErrorResponse]
    rw [if_neg hng]

/-- C1 amended, on a sample: the join of `alice` succeeds after three worker
steps and five seconds; the `select`, which would pick the timer case, returns
status 200 with the room id. -/
theorem delivered_before_deadline_returns_worker_response_witness :
    (prepare sampleImports (sampleRequest .absent none) alice profileFound "#foo:example.org"
        = .dispatch aliceJoinReq
      ∧ (JoinRoomByIDOrAlias sampleImports (sampleRequest .absent none) alice joinSucceeds
          profileFound "#foo:example.org"
          (List.replicate 5 Event.tick
            ++ [Event.worker, Event.worker, Event.worker])).waiting = true
      ∧ (JoinRoomByIDOrAlias sampleImports (sampleRequest .absent none) alice joinSucceeds
          profileFound "#foo:example.org"
          (List.replicate 5 Event.tick
            ++ [Event.worker, Event.worker, Event.worker])).delivered = true
      ∧ (JoinRoomByIDOrAlias sampleImports (sampleRequest .absent none) alice joinSucceeds
          profileFound "#foo:example.org"
          (List.replicate 5 Event.tick
            ++ [Event.worker, Event.worker, Event.worker])).elapsed < 20)
    ∧ ∃ r, (JoinRoomByIDOrAlias sampleImports (sampleRequest .absent none) alice joinSucceeds
          profileFound "#foo:example.org"
          (List.replicate 5 Event.tick
            ++ [Event.worker, Event.worker, Event.worker]
            ++ [Event.select .timer])).response = some r
        ∧ r = { Code := 200, JSON := .roomID "!abc123:example.org" } := by
  refine ⟨⟨rfl, rfl, rfl, by decide⟩, ?_⟩
  obtain ⟨r, -, hr, -, hok, -, -⟩ :=
    delivered_before_deadline_returns_worker_response sampleImports
      (sampleRequest .absent none) alice joinSucceeds profileFound "#foo:example.org"
      aliceJoinReq (List.replicate 5 Event.tick ++ [Event.worker, Event.worker, Event.worker])
      .timer rfl rfl rfl (by decide)
  exact ⟨r, hr, hok rfl rfl⟩

/-- C2, refuted as stated: when the twenty seconds have gone by the worker has
sent nothing; it delivers afterwards, before the handler evaluates its
`select`, the receive from `done` is picked, and the handler returns what the
worker produced (200 for a join that succeeds, 500 for a call that fails)
instead of 202. -/
theorem late_delivery_may_be_returned :
    (JoinRoomByIDOrAlias sampleImports (sampleRequest .absent none) alice joinSucceeds
        profileFound "#foo:example.org" (Event.worker :: twentySeconds)).sends = []
    ∧ (JoinRoomByIDOrAlias sampleImports (sampleRequest .absent none) alice joinSucceeds
        profileFound "#foo:example.org" (Event.worker :: twentySeconds)).elapsed = 20
    ∧ (JoinRoomByIDOrAlias sampleImports (sampleRequest .absent none) alice joinSucceeds
        profileFound "#foo:example.org"
        (Event.worker :: twentySeconds ++ [Event.worker, Event.worker]
          ++ [Event.select .done])).response
      = some { Code := 200, JSON := .roomID "!abc123:example.org" }
    ∧ (JoinRoomByIDOrAlias sampleImports (sampleRequest .absent none) alice joinFails
        profileFound "#foo:example.org"
        (Event.worker :: twentySeconds ++ [Event.worker, Event.worker]
          ++ [Event.select .done])).response
      = some { Code := 500, JSON := .ext .internalServerError } :=
  ⟨rfl, rfl, rfl, rfl⟩

/-- C2, amended: when, at the time the handler evaluates its `select`, 20
seconds or more have gone by on the timer and `done` holds no result, the
handler returns status 202 with the message that the join continues in the
background; the response is this fixed value whatever `PerformJoin` returns,
and it stays the response under everything that happens later. -/
theorem not_delivered_at_deadline_returns_accepted {X : Type} (I : Imports X)
    (req : Request) (device : Device)
    (PerformJoin : Context → PerformJoinRequest → PerformJoinResponse →
      PerformJoinResponse × Option GoError)
    (QueryProfile : Context → String → Profile × Option GoError)
    (roomIDOrAlias : String) (sched : List Event) (pick : SelectCase) (later : List Event)
    (hwait : (JoinRoomByIDOrAlias I req device PerformJoin QueryProfile roomIDOrAlias
      sched).waiting = true)
    (hdel : (JoinRoomByIDOrAlias I req device PerformJoin QueryProfile roomIDOrAlias
      sched).delivered = false)
    (hel : 20 ≤ (JoinRoomByIDOrAlias I req device PerformJoin QueryProfile roomIDOrAlias
      sched).elapsed) :
    (JoinRoomByIDOrAlias I req device PerformJoin QueryProfile roomIDOrAlias
        (sched ++ [Event.select pick])).response
      = some { Code := 202
               JSON := .ext (I.Unknown "The room join will continue in the background.") }
    ∧ (JoinRoomByIDOrAlias I req device PerformJoin QueryProfile roomIDOrAlias
        (sched ++ [Event.select pick] ++ later)).response
      = some { Code := 202
               JSON := .ext (I.Unknown "The room join will continue in the background.") } := by
  obtain ⟨joinReq, hprep⟩ :=
    dispatch_of_waiting I req device PerformJoin QueryProfile roomIDOrAlias sched hwait
  have hdl : (JoinRoomByIDOrAlias I req device PerformJoin QueryProfile roomIDOrAlias
      sched).deadlineFired = true := by
    rw [deadlineFired_iff]
    simpa using hel
  have h : (JoinRoomByIDOrAlias I req device PerformJoin QueryProfile roomIDOrAlias
      (sched ++ [Event.select pick])).response = some (acceptedResponse I) := by
    rw [select_response I req device PerformJoin QueryProfile roomIDOrAlias joinReq sched pick
      hprep hwait, hdel, hdl]
  exact ⟨h, response_stable I req device PerformJoin QueryProfile roomIDOrAlias _ later _ h⟩

/-- C2 amended, on a sample: the worker of `alice` is still inside
`PerformJoin` when twenty seconds have gone by; the handler answers 202, also
after the worker has finished. -/
theorem not_delivered_at_deadline_returns_accepted_witness :
    ((JoinRoomByIDOrAlias sampleImports (sampleRequest .absent none) alice joinSucceeds
          profileFound "#foo:example.org" (Event.worker :: twentySeconds)).waiting = true
      ∧ (JoinRoomByIDOrAlias sampleImports (sampleRequest .absent none) alice joinSucceeds
          profileFound "#foo:example.org" (Event.worker :: twentySeconds)).delivered = false
      ∧ 20 ≤ (JoinRoomByIDOrAlias sampleImports (sampleRequest .absent none) alice joinSucceeds
          profileFound "#foo:example.org" (Event.worker :: twentySeconds)).elapsed)
    ∧ (JoinRoomByIDOrAlias sampleImports (sampleRequest .absent none) alice joinSucceeds
        profileFound "#foo:example.org"
        (Event.worker :: twentySeconds ++ [Event.select .done]
          ++ [Event.worker, Event.worker, Event.worker])).response
      = some { Code := 202
               JSON := .ext (.unknown "The room join will continue in the background.") } :=
  ⟨⟨rfl, rfl, by decide⟩,
    (not_delivered_at_deadline_returns_accepted sampleImports
      (sampleRequest .absent none) alice joinSucceeds profileFound "#foo:example.org"
      (Event.worker :: twentySeconds) .done [Event.worker, Event.worker, Event.worker]
      rfl rfl (by decide)).2⟩

/-- C10, refuted as stated: with the result of the worker in `done` and the
timer fired, a `select` that picks the timer case returns the 202 response and
not the delivered result. -/
theorem both_ready_may_return_accepted :
    (JoinRoomByIDOrAlias sampleImports (sampleRequest .absent none) alice joinSucceeds
        profileFound "#foo:example.org"
        ([Event.worker, Event.worker, Event.worker] ++ twentySeconds)).waiting = true
    ∧ (JoinRoomByIDOrAlias sampleImports (sampleRequest .absent none) alice joinSucceeds
        profileFound "#foo:example.org"
        ([Event.worker, Event.worker, Event.worker] ++ twentySeconds)).delivered = true
    ∧ (JoinRoomByIDOrAlias sampleImports (sampleRequest .absent none) alice joinSucceeds
        profileFound "#foo:example.org"
        ([Event.worker, Event.worker, Event.worker] ++ twentySeconds)).deadlineFired = true
    ∧ (JoinRoomByIDOrAlias sampleImports (sampleRequest .absent none) alice joinSucceeds
        profileFound "#foo:example.org"
        ([Event.worker, Event.worker, Event.worker] ++ twentySeconds ++ [Event.select .timer])).response
      = some { Code := 202
               JSON := .ext (.unknown "The room join will continue in the background.") }
    ∧ (JoinRoomByIDOrAlias sampleImports (sampleRequest .absent none) alice joinSucceeds
        profileFound "#foo:example.org"
        ([Event.worker, Event.worker, Event.worker] ++ twentySeconds ++ [Event.select .timer])).response
      ≠ some (workerValue sampleImports (sampleRequest .absent none).ctx alice joinSucceeds
          aliceJoinReq) :=
  ⟨rfl, rfl, rfl, rfl, by decide⟩

/-- C10, amended: with the result of the worker in `done` and the timer fired,
the handler returns what the case picked by the `select` yields: the delivered
result when the receive from `done` is picked, the 202 response when the timer
case is picked. -/
theorem both_ready_returns_picked_case {X : Type} (I : Imports X)
    (req : Request) (device : Device)
    (PerformJoin : Context → PerformJoinRequest → PerformJoinResponse →
      PerformJoinResponse × Option GoError)
    (QueryProfile : Context → String → Profile × Option GoError)
    (roomIDOrAlias : String) (joinReq : PerformJoinRequest) (sched : List Event)
    (hprep : prepare I req device QueryProfile roomIDOrAlias = .dispatch joinReq)
    (hwait : (JoinRoomByIDOrAlias I req device PerformJoin QueryProfile roomIDOrAlias
      sched).waiting = true)
    (hdel : (JoinRoomByIDOrAlias I req device PerformJoin QueryProfile roomIDOrAlias
      sched).delivered = true)
    (hdl : (JoinRoomByIDOrAlias I req device PerformJoin QueryProfile roomIDOrAlias
      sched).deadlineFired = true) :
    (JoinRoomByIDOrAlias I req device PerformJoin QueryProfile roomIDOrAlias
        (sched ++ [Event.select .done])).response
      = some (workerValue I req.ctx device PerformJoin joinReq)
    ∧ (JoinRoomByIDOrAlias I req device PerformJoin QueryProfile roomIDOrAlias
        (sched ++ [Event.select .timer])).response
      = some { Code := 202
               JSON := .ext (I.Unknown "The room join will continue in the background.") } := by
  constructor
  · rw [select_response I req device PerformJoin QueryProfile roomIDOrAlias joinReq sched .done
      hprep hwait, hdel, hdl]
  · rw [select_response I req device PerformJoin QueryProfile roomIDOrAlias joinReq sched .timer
      hprep hwait, hdel, hdl]
    rfl

/-- C10 amended, on a sample: both cases ready, and the receive from `done` is
picked. -/
theorem both_ready_returns_picked_case_witness :
    (prepare sampleImports (sampleRequest .absent none) alice profileFound "#foo:example.org"
        = .dispatch aliceJoinReq
      ∧ (JoinRoomByIDOrAlias sampleImports (sampleRequest .absent none) alice joinSucceeds
          profileFound "#foo:example.org"
          ([Event.worker, Event.worker, Event.worker] ++ twentySeconds)).waiting = true
      ∧ (JoinRoomByIDOrAlias sampleImports (sampleRequest .absent none) alice joinSucceeds
          profileFound "#foo:example.org"
          ([Event.worker, Event.worker, Event.worker] ++ twentySeconds)).delivered = true
      ∧ (JoinRoomByIDOrAlias sampleImports (sampleRequest .absent none) alice joinSucceeds
          profileFound "#foo:example.org"
          ([Event.worker, Event.worker, Event.worker] ++ twentySeconds)).deadlineFired = true)
    ∧ (JoinRoomByIDOrAlias sampleImports (sampleRequest .absent none) alice joinSucceeds
        profileFound "#foo:example.org"
        ([Event.worker, Event.worker, Event.worker] ++ twentySeconds ++ [Event.select .done])).response
      = some (workerValue sampleImports (sampleRequest .absent none).ctx alice joinSucceeds
          aliceJoinReq) :=
  ⟨⟨rfl, rfl, rfl, rfl⟩,
    (both_ready_returns_picked_case sampleImports (sampleRequest .absent none) alice
      joinSucceeds profileFound "#foo:example.org" aliceJoinReq
      ([Event.worker, Event.worker, Event.worker] ++ twentySeconds) rfl rfl rfl rfl).1⟩

/-- C9: after the worker has taken `n` steps, under every interleaving with the
clock and with the handler, it stands where `n` unhindered steps lead (so no
step of it ever blocks); the values sent on `done` are none before its third
step and exactly the one value it computed from then on; `done`, of capacity
one, is closed exactly from the fourth step on; and whenever the worker is
about to send, the send goes through. -/
theorem worker_sends_once_and_closes {X : Type} (I : Imports X)
    (req : Request) (device : Device)
    (PerformJoin : Context → PerformJoinRequest → PerformJoinResponse →
      PerformJoinResponse × Option GoError)
    (QueryProfile : Context → String → Profile × Option GoError)
    (roomIDOrAlias : String) (joinReq : PerformJoinRequest) (sched : List Event)
    (hprep : prepare I req device QueryProfile roomIDOrAlias = .dispatch joinReq) :
    ∃ st, JoinRoomByIDOrAlias I req device PerformJoin QueryProfile roomIDOrAlias sched
        = .raced st
      ∧ st.worker = workerAfter (workerValue I req.ctx device PerformJoin joinReq)
          (workerEvents sched)
      ∧ st.sends = (if 3 ≤ workerEvents sched
          then [workerValue I req.ctx device PerformJoin joinReq] else [])
      ∧ st.done.cap = 1
      ∧ st.done.closed = decide (4 ≤ workerEvents sched)
      ∧ (∀ v, st.worker = .sending v → ∃ c, st.done.send v = .sent c) := by
  obtain ⟨st, hst, hinv⟩ :=
    outcome_inv I req device PerformJoin QueryProfile roomIDOrAlias joinReq sched hprep
  refine ⟨st, hst, hinv.worker, hinv.sends, hinv.cap, hinv.closed, ?_⟩
  intro v hv
  have hw := hinv.worker
  rw [hv] at hw
  have hn : workerEvents sched = 2 := by
    generalize workerEvents sched = n at hw
    rcases n with _ | _ | _ | _ | n <;> simp [workerAfter] at hw
    rfl
  have hb := hinv.bufEarly (by omega)
  have hc := hinv.closed
  rw [hn] at hc
  refine ⟨{ st.done with buf := st.done.buf ++ [v] }, ?_⟩
  simp [Chan.send, hb, hinv.cap, hc]

/-- C9, on a sample: the handler has answered 202 at the deadline and nobody
receives from `done`; the worker still sends its one value and ends. -/
theorem worker_sends_once_and_closes_witness :
    prepare sampleImports (sampleRequest .absent none) alice profileFound "#foo:example.org"
        = .dispatch aliceJoinReq
    ∧ ∃ st, JoinRoomByIDOrAlias sampleImports (sampleRequest .absent none) alice joinSucceeds
          profileFound "#foo:example.org"
          (Event.worker :: twentySeconds ++ [Event.select .done] ++ [Event.worker, Event.worker, Event.worker])
        = .raced st
      ∧ st.worker = .exited
      ∧ st.sends = [{ Code := 200, JSON := .roomID "!abc123:example.org" }]
      ∧ st.done.closed = true := by
  refine ⟨rfl, ?_⟩
  obtain ⟨st, hst, hw, hs, -, hc, -⟩ :=
    worker_sends_once_and_closes sampleImports (sampleRequest .absent none) alice
      joinSucceeds profileFound "#foo:example.org" aliceJoinReq
      (Event.worker :: twentySeconds ++ [Event.select .done] ++ [Event.worker, Event.worker, Event.worker]) rfl
  exact ⟨st, hst, hw, hs, hc⟩

/-- C8, refuted as stated: in a run where the deadline fires first and the
handler answers 202, the context that the call of `PerformJoin` was handed is
the context of the request itself. -/
theorem perform_join_gets_request_context :
    (JoinRoomByIDOrAlias sampleImports (sampleRequest .absent none) alice joinSucceeds
        profileFound "#foo:example.org" (Event.worker :: twentySeconds)).waiting = true
    ∧ (JoinRoomByIDOrAlias sampleImports (sampleRequest .absent none) alice joinSucceeds
        profileFound "#foo:example.org" (Event.worker :: twentySeconds)).delivered = false
    ∧ (JoinRoomByIDOrAlias sampleImports (sampleRequest .absent none) alice joinSucceeds
        profileFound "#foo:example.org" (Event.worker :: twentySeconds)).deadlineFired = true
    ∧ (JoinRoomByIDOrAlias sampleImports (sampleRequest .absent none) alice joinSucceeds
        profileFound "#foo:example.org"
        (Event.worker :: twentySeconds ++ [Event.select .timer])).response
      = some { Code := 202
               JSON := .ext (.unknown "The room join will continue in the background.") }
    ∧ ((JoinRoomByIDOrAlias sampleImports (sampleRequest .absent none) alice joinSucceeds
        profileFound "#foo:example.org"
        (Event.worker :: twentySeconds ++ [Event.select .timer])).calls.map Prod.fst)
      = [(sampleRequest .absent none).ctx] :=
  ⟨rfl, rfl, rfl, rfl, rfl⟩

/-- C8, amended: when the deadline fires first the handler answers 202 and
takes no step against the worker: under everything that happens later the
worker, once it has been given four steps in all, has made its one call of
`PerformJoin`, has sent the value computed from it and has ended.  The context
handed to `PerformJoin` is the context of the request. -/
theorem deadline_leaves_worker_running {X : Type} (I : Imports X)
    (req : Request) (device : Device)
    (PerformJoin : Context → PerformJoinRequest → PerformJoinResponse →
      PerformJoinResponse × Option GoError)
    (QueryProfile : Context → String → Profile × Option GoError)
    (roomIDOrAlias : String) (joinReq : PerformJoinRequest) (sched : List Event)
    (pick : SelectCase) (later : List Event)
    (hprep : prepare I req device QueryProfile roomIDOrAlias = .dispatch joinReq)
    (hwait : (JoinRoomByIDOrAlias I req device PerformJoin QueryProfile roomIDOrAlias
      sched).waiting = true)
    (hdel : (JoinRoomByIDOrAlias I req device PerformJoin QueryProfile roomIDOrAlias
      sched).delivered = false)
    (hdl : (JoinRoomByIDOrAlias I req device PerformJoin QueryProfile roomIDOrAlias
      sched).deadlineFired = true) :
    (JoinRoomByIDOrAlias I req device PerformJoin QueryProfile roomIDOrAlias
        (sched ++ [Event.select pick] ++ later)).response
      = some { Code := 202
               JSON := .ext (I.Unknown "The room join will continue in the background.") }
    ∧ (∀ call ∈ (JoinRoomByIDOrAlias I req device PerformJoin QueryProfile roomIDOrAlias
        (sched ++ [Event.select pick] ++ later)).calls, call.1 = req.ctx)
    ∧ (4 ≤ workerEvents (sched ++ later) →
        ∃ st, JoinRoomByIDOrAlias I req device PerformJoin QueryProfile roomIDOrAlias
            (sched ++ [Event.select pick] ++ later) = .raced st
          ∧ st.worker = .exited
          ∧ st.calls = [(req.ctx, joinReq)]
          ∧ st.sends = [workerValue I req.ctx device PerformJoin joinReq]) := by
  refine ⟨?_, ?_, ?_⟩
  · have h : (JoinRoomByIDOrAlias I req device PerformJoin QueryProfile roomIDOrAlias
        (sched ++ [Event.select pick])).response = some (acceptedResponse I) := by
      rw [select_response I req device PerformJoin QueryProfile roomIDOrAlias joinReq sched pick
        hprep hwait, hdel, hdl]
    exact response_stable I req device PerformJoin QueryProfile roomIDOrAlias _ later _ h
  · intro call hcall
    obtain ⟨jr, -, hc⟩ :=
      call_mem I req device PerformJoin QueryProfile roomIDOrAlias _ call hcall
    rw [hc]
  · intro h4
    obtain ⟨st, hst, hinv⟩ :=
      outcome_inv I req device PerformJoin QueryProfile roomIDOrAlias joinReq
        (sched ++ [Event.select pick] ++ later) hprep
    have hn : workerEvents (sched ++ [Event.select pick] ++ later)
        = workerEvents (sched ++ later) := by
      simp [workerEvents, List.count_append]
    have h4' : 4 ≤ workerEvents (sched ++ [Event.select pick] ++ later) := by omega
    refine ⟨st, hst, ?_, ?_, ?_⟩
    · have hw := hinv.worker
      generalize workerEvents (sched ++ [Event.select pick] ++ later) = n at hw h4'
      rcases n with _ | _ | _ | _ | n
      · omega
      · omega
      · omega
      · omega
      · simpa [workerAfter] using hw
    · rw [hinv.calls, if_pos (by omega)]
    · rw [hinv.sends, if_pos (by omega)]

/-- C8 amended, on a sample: the worker of `alice` is inside `PerformJoin` when
the deadline fires; the handler answers 202 and the worker finishes. -/
theorem deadline_leaves_worker_running_witness :
    (prepare sampleImports (sampleRequest .absent none) alice profileFound "#foo:example.org"
        = .dispatch aliceJoinReq
      ∧ (JoinRoomByIDOrAlias sampleImports (sampleRequest .absent none) alice joinSucceeds
          profileFound "#foo:example.org" (Event.worker :: twentySeconds)).waiting = true
      ∧ (JoinRoomByIDOrAlias sampleImports (sampleRequest .absent none) alice joinSucceeds
          profileFound "#foo:example.org" (Event.worker :: twentySeconds)).delivered = false
      ∧ (JoinRoomByIDOrAlias sampleImports (sampleRequest .absent none) alice joinSucceeds
          profileFound "#foo:example.org" (Event.worker :: twentySeconds)).deadlineFired = true
      ∧ 4 ≤ workerEvents
          (Event.worker :: twentySeconds ++ [Event.worker, Event.worker, Event.worker]))
    ∧ ∃ st, JoinRoomByIDOrAlias sampleImports (sampleRequest .absent none) alice joinSucceeds
          profileFound "#foo:example.org"
          (Event.worker :: twentySeconds ++ [Event.select .done]
            ++ [Event.worker, Event.worker, Event.worker]) = .raced st
        ∧ st.worker = .exited
        ∧ st.calls = [((sampleRequest .absent none).ctx, aliceJoinReq)]
        ∧ st.sends = [workerValue sampleImports (sampleRequest .absent none).ctx alice
            joinSucceeds aliceJoinReq] :=
  ⟨⟨rfl, rfl, rfl, rfl, by decide⟩,
    (deadline_leaves_worker_running sampleImports (sampleRequest .absent none) alice
      joinSucceeds profileFound "#foo:example.org" aliceJoinReq (Event.worker :: twentySeconds)
      .done [Event.worker, Event.worker, Event.worker] rfl rfl rfl rfl).2.2 (by decide)⟩

/-! ## Lemmas on the sequential part -/

theorem foldl_serverNames (serverNames : List String) (joinReq : PerformJoinRequest) :
    serverNames.foldl
        (fun jr serverName =>
          { jr with ServerNames := jr.ServerNames ++ [ServerName.mk serverName] })
        joinReq
      = { joinReq with ServerNames := joinReq.ServerNames ++ serverNames.map ServerName.mk } := by
  induction serverNames generalizing joinReq with
  | nil => simp
  | cons v rest ih => simp [ih]

/-- The loop of lines 48 to 55 appends the converted query values in order and
leaves the other fields alone. -/
theorem appendServerNames_eq (query : String → Option (List String))
    (joinReq : PerformJoinRequest) :
    appendServerNames query joinReq
      = { joinReq with
          ServerNames := joinReq.ServerNames ++
            (match query "server_name" with
              | some serverNames => serverNames.map ServerName.mk
              | none => []) } := by
  unfold appendServerNames
  cases query "server_name" with
  | none => simp
  | some serverNames => simp [foldl_serverNames]

/-- The sequential part of the handler, written out by the result of
`QueryProfile` and by what decoding the body leaves of the content. -/
theorem prepare_eq {X : Type} (I : Imports X) (req : Request) (device : Device)
    (QueryProfile : Context → String → Profile × Option GoError) (roomIDOrAlias : String) :
    prepare I req device QueryProfile roomIDOrAlias =
      match (QueryProfile req.ctx device.UserID).2 with
      | none =>
        match UnmarshalJSONRequest req.body Content.empty with
        | none => .panicked
        | some es =>
          .dispatch
            { RoomIDOrAlias := roomIDOrAlias
              UserID := device.UserID
              IsGuest := decide (device.AccountType = I.AccountTypeGuest)
              Content := some (fun k' =>
                if k' = "avatar_url" then
                  some (.str (QueryProfile req.ctx device.UserID).1.AvatarURL)
                else if k' = "displayname" then
                  some (.str (QueryProfile req.ctx device.UserID).1.DisplayName)
                else es k')
              ServerNames :=
                match req.query "server_name" with
                | some serverNames => serverNames.map ServerName.mk
                | none => [] }
      | some err =>
        if err = I.ErrProfileNotExists then
          .returned
            { Code := 500
              JSON := .ext (I.Unknown "Unable to query user profile, no profile found.") }
        else
          .dispatch
            { RoomIDOrAlias := roomIDOrAlias
              UserID := device.UserID
              IsGuest := decide (device.AccountType = I.AccountTypeGuest)
              Content := UnmarshalJSONRequest req.body Content.empty
              ServerNames :=
                match req.query "server_name" with
                | some serverNames => serverNames.map ServerName.mk
                | none => [] } := by
  unfold prepare
  simp only [appendServerNames_eq, List.nil_append]
  cases (QueryProfile req.ctx device.UserID).2 with
  | some err =>
    simp only [StatusInternalServerError]
  | none =>
    cases hu : UnmarshalJSONRequest req.body Content.empty with
    | none => simp [hu, Content.set]
    | some es => simp [hu, Content.set]

/-- Merging the members of a JSON object leaves every key alone that is not
among them. -/
theorem merge_other (members : List (String × Value)) (es : Entries) (k : String)
    (h : members.any (fun kv => kv.1 == k) = false) :
    Entries.merge es members k = es k := by
  unfold Entries.merge
  induction members generalizing es with
  | nil => rfl
  | cons kv rest ih =>
    simp only [List.any_cons, Bool.or_eq_false_iff] at h
    rw [List.foldl_cons, ih _ h.2]
    have hne : ¬ k = kv.1 := by
      intro hk
      have := h.1
      simp [hk] at this
    simp [hne]

/-- Decoding the body into the empty map leaves no entry under a key that the
body does not supply. -/
theorem unmarshal_get_other (body : Body) (k : String) (h : body.hasKey k = false) :
    (UnmarshalJSONRequest body Content.empty).get k = none := by
  cases body with
  | object members =>
    simp only [Body.hasKey] at h
    simp [UnmarshalJSONRequest, Content.empty, Content.get, merge_other members _ k h]
  | _ => simp [UnmarshalJSONRequest, Content.empty, Content.get]

/-! ## The claims on the sequential part -/

/-- C7: the `ServerNames` of the join request handed to `PerformJoin` is the
list of the `server_name` query values, each converted to a server name, in
the order received and of the same length; it is empty when the parameter is
not present. -/
theorem server_names_in_order {X : Type} (I : Imports X)
    (req : Request) (device : Device)
    (PerformJoin : Context → PerformJoinRequest → PerformJoinResponse →
      PerformJoinResponse × Option GoError)
    (QueryProfile : Context → String → Profile × Option GoError)
    (roomIDOrAlias : String) (sched : List Event) (call : Context × PerformJoinRequest)
    (hcall : call ∈ (JoinRoomByIDOrAlias I req device PerformJoin QueryProfile roomIDOrAlias
      sched).calls) :
    call.2.ServerNames =
      (match req.query "server_name" with
        | some serverNames => serverNames.map ServerName.mk
        | none => [])
    ∧ call.2.ServerNames.length =
      (match req.query "server_name" with
        | some serverNames => serverNames.length
        | none => 0) := by
  obtain ⟨joinReq, hprep, hc⟩ :=
    call_mem I req device PerformJoin QueryProfile roomIDOrAlias sched call hcall
  have hnames : joinReq.ServerNames =
      (match req.query "server_name" with
        | some serverNames => serverNames.map ServerName.mk
        | none => []) := by
    rw [prepare_eq] at hprep
    cases hq : (QueryProfile req.ctx device.UserID).2 with
    | none =>
      rw [hq] at hprep
      cases hu : UnmarshalJSONRequest req.body Content.empty with
      | none => simp [hu] at hprep
      | some es =>
        simp only [hu, Prepared.dispatch.injEq] at hprep
        rw [← hprep]
    | some err =>
      rw [hq] at hprep
      by_cases he : err = I.ErrProfileNotExists
      · simp [he] at hprep
      · simp only [he, if_false, Prepared.dispatch.injEq] at hprep
        rw [← hprep]
  subst hc
  refine ⟨hnames, ?_⟩
  simp only [hnames]
  cases req.query "server_name" <;> simp

/-- C7, on a sample: three query values, one of them repeated, reach
`PerformJoin` in the order received. -/
theorem server_names_in_order_witness :
    ∃ call, call ∈ (JoinRoomByIDOrAlias sampleImports
          (sampleRequest .absent (some ["a.example.org", "b.example.org", "a.example.org"]))
          alice joinSucceeds profileFound "#foo:example.org" [Event.worker]).calls
      ∧ call.2.ServerNames
        = [⟨"a.example.org"⟩, ⟨"b.example.org"⟩, ⟨"a.example.org"⟩] :=
  ⟨_, List.Mem.head _,
    (server_names_in_order sampleImports
      (sampleRequest .absent (some ["a.example.org", "b.example.org", "a.example.org"]))
      alice joinSucceeds profileFound "#foo:example.org" [Event.worker] _
      (List.Mem.head _)).1⟩

/-- C4: when `QueryProfile` returns `ErrProfileNotExists`, the handler returns
status 500 with the message that no profile was found, whatever the request,
and under every schedule no worker is started and `PerformJoin` is not
called. -/
theorem profile_not_exists_aborts {X : Type} (I : Imports X)
    (req : Request) (device : Device)
    (PerformJoin : Context → PerformJoinRequest → PerformJoinResponse →
      PerformJoinResponse × Option GoError)
    (QueryProfile : Context → String → Profile × Option GoError)
    (roomIDOrAlias : String) (sched : List Event)
    (herr : (QueryProfile req.ctx device.UserID).2 = some I.ErrProfileNotExists) :
    (JoinRoomByIDOrAlias I req device PerformJoin QueryProfile roomIDOrAlias sched).response
      = some { Code := 500
               JSON := .ext (I.Unknown "Unable to query user profile, no profile found.") }
    ∧ (JoinRoomByIDOrAlias I req device PerformJoin QueryProfile roomIDOrAlias sched).calls = []
    ∧ (JoinRoomByIDOrAlias I req device PerformJoin QueryProfile roomIDOrAlias
        sched).workerStarted = false := by
  unfold JoinRoomByIDOrAlias
  rw [prepare_eq, herr]
  simp [Outcome.response, Outcome.calls, Outcome.workerStarted]

/-- C4, on a sample: the profile of `alice` is missing. -/
theorem profile_not_exists_aborts_witness :
    (profileMissing (sampleRequest .null none).ctx alice.UserID).2
        = some sampleImports.ErrProfileNotExists
    ∧ (JoinRoomByIDOrAlias sampleImports (sampleRequest .null none) alice joinSucceeds
        profileMissing "#foo:example.org"
        [Event.worker, Event.worker, Event.select .done]).calls = [] :=
  ⟨rfl,
    (profile_not_exists_aborts sampleImports (sampleRequest .null none) alice joinSucceeds
      profileMissing "#foo:example.org" [Event.worker, Event.worker, Event.select .done]
      rfl).2.1⟩

/-- C3: for a join rejected with `joinRes.Error` (and `err` nil), the value of
the worker is status 403 with the guest payload carrying `joinRes.Error.Msg`
when the code is `PerformErrorNotAllowed` and the device is a guest account,
and `joinRes.Error.JSONResponse()` in every other case; the guest test is the
one that fills `IsGuest` of the join request. -/
theorem guest_not_allowed_is_forbidden {X : Type} (I : Imports X) (ctx : Context)
    (device : Device) (joinRes : PerformJoinResponse) (e : PerformError)
    (herr : joinRes.Error = some e) :
    (e.Code = I.PerformErrorNotAllowed → device.AccountType = I.AccountTypeGuest →
      workerResponse I ctx device none joinRes
        = { Code := 403, JSON := .ext (I.GuestAccessForbidden e.Msg) })
    ∧ (e.Code = I.PerformErrorNotAllowed → device.AccountType ≠ I.AccountTypeGuest →
      workerResponse I ctx device none joinRes = I.PerformErrorJSONResponse e)
    ∧ (e.Code ≠ I.PerformErrorNotAllowed →
      workerResponse I ctx device none joinRes = I.PerformErrorJSONResponse e)
    ∧ (∀ (req : Request) (QueryProfile : Context → String → Profile × Option GoError)
        (roomIDOrAlias : String) (joinReq : PerformJoinRequest),
        prepare I req device QueryProfile roomIDOrAlias = .dispatch joinReq →
        (joinReq.IsGuest = true ↔ device.AccountType = I.AccountTypeGuest)) := by
  refine ⟨?_, ?_, ?_, ?_⟩
  · intro hc hg
    simp [workerResponse, herr, domainErrorResponse, hc, hg, StatusForbidden]
  · intro hc hg
    simp [workerResponse, herr, domainErrorResponse, hc, hg]
  · intro hc
    simp [workerResponse, herr, domainErrorResponse, hc]
  · intro req QueryProfile roomIDOrAlias joinReq hprep
    rw [prepare_eq] at hprep
    cases hq : (QueryProfile req.ctx device.UserID).2 with
    | none =>
      rw [hq] at hprep
      cases hu : UnmarshalJSONRequest req.body Content.empty with
      | none => simp [hu] at hprep
      | some es =>
        simp only [hu, Prepared.dispatch.injEq] at hprep
        rw [← hprep]
        simp
    | some err =>
      rw [hq] at hprep
      by_cases he : err = I.ErrProfileNotExists
      · simp [he] at hprep
      · simp only [he, if_false, Prepared.dispatch.injEq] at hprep
        rw [← hprep]
        simp

/-- C3, on a sample: a guest is refused as not allowed. -/
theorem guest_not_allowed_is_forbidden_witness :
    ((1 : Int) = sampleImports.PerformErrorNotAllowed
      ∧ guest.AccountType = sampleImports.AccountTypeGuest)
    ∧ workerResponse sampleImports ⟨1⟩ guest none
        { RoomID := "", Error := some { Code := 1, Msg := "room is invite-only" } }
      = { Code := 403, JSON := .ext (.guestAccessForbidden "room is invite-only") } :=
  ⟨⟨rfl, rfl⟩,
    (guest_not_allowed_is_forbidden sampleImports ⟨1⟩ guest
      { RoomID := "", Error := some { Code := 1, Msg := "room is invite-only" } }
      { Code := 1, Msg := "room is invite-only" } rfl).1 rfl rfl⟩

/-- C5, refuted as stated: the profile lookup fails with an error other than
`ErrProfileNotExists`, the body is a JSON object with the key `displayname`,
and the content handed to `PerformJoin` holds that key. -/
theorem body_display_name_reaches_perform_join :
    (profileDown (sampleRequest (.object [("displayname", .str "Mallory")]) none).ctx
        alice.UserID).2 = some ⟨7⟩
    ∧ (⟨7⟩ : GoError) ≠ sampleImports.ErrProfileNotExists
    ∧ ((JoinRoomByIDOrAlias sampleImports
          (sampleRequest (.object [("displayname", .str "Mallory")]) none) alice joinSucceeds
          profileDown "#foo:example.org" [Event.worker]).calls.map
        (fun call => call.2.Content.get "displayname"))
      = [some (.str "Mallory")] :=
  ⟨rfl, by decide, rfl⟩

/-- C5, amended: when `QueryProfile` returns an error other than
`ErrProfileNotExists` the handler does not abort: the worker is started and
calls `PerformJoin` once it runs, and the content of the join request is what
decoding the body left, with nothing added by the handler; it holds
`displayname` or `avatar_url` only if the body is a JSON object with that
key. -/
theorem other_profile_error_skips_enrichment {X : Type} (I : Imports X)
    (req : Request) (device : Device)
    (PerformJoin : Context → PerformJoinRequest → PerformJoinResponse →
      PerformJoinResponse × Option GoError)
    (QueryProfile : Context → String → Profile × Option GoError)
    (roomIDOrAlias : String) (sched : List Event) (err : GoError)
    (herr : (QueryProfile req.ctx device.UserID).2 = some err)
    (hne : err ≠ I.ErrProfileNotExists) :
    (JoinRoomByIDOrAlias I req device PerformJoin QueryProfile roomIDOrAlias
        sched).workerStarted = true
    ∧ (1 ≤ workerEvents sched →
        (JoinRoomByIDOrAlias I req device PerformJoin QueryProfile roomIDOrAlias
          sched).calls.length = 1)
    ∧ (∀ call ∈ (JoinRoomByIDOrAlias I req device PerformJoin QueryProfile roomIDOrAlias
          sched).calls,
        call.2.Content = UnmarshalJSONRequest req.body Content.empty
        ∧ (req.body.hasKey "displayname" = false → call.2.Content.get "displayname" = none)
        ∧ (req.body.hasKey "avatar_url" = false → call.2.Content.get "avatar_url" = none)) := by
  have hprep := prepare_eq I req device QueryProfile roomIDOrAlias
  rw [herr] at hprep
  simp only [hne, if_false] at hprep
  refine ⟨?_, ?_, ?_⟩
  · simp [JoinRoomByIDOrAlias, hprep, Outcome.workerStarted]
  · intro h1
    rw [calls_of_dispatch I req device PerformJoin QueryProfile roomIDOrAlias _ sched hprep,
      if_pos h1]
    rfl
  · intro call hcall
    obtain ⟨joinReq, hp, hc⟩ :=
      call_mem I req device PerformJoin QueryProfile roomIDOrAlias sched call hcall
    rw [hprep] at hp
    simp only [Prepared.dispatch.injEq] at hp
    subst hc
    rw [← hp]
    exact ⟨rfl, unmarshal_get_other req.body "displayname",
      unmarshal_get_other req.body "avatar_url"⟩

/-- C5 amended, on a sample: the profile lookup fails, the body supplies
`membership` only, and the content handed on holds no `displayname`. -/
theorem other_profile_error_skips_enrichment_witness :
    ((profileDown (sampleRequest (.object [("membership", .str "join")]) none).ctx
          alice.UserID).2 = some ⟨7⟩
      ∧ (⟨7⟩ : GoError) ≠ sampleImports.ErrProfileNotExists
      ∧ 1 ≤ workerEvents [Event.worker])
    ∧ (JoinRoomByIDOrAlias sampleImports
        (sampleRequest (.object [("membership", .str "join")]) none) alice joinSucceeds
        profileDown "#foo:example.org" [Event.worker]).calls.length = 1 :=
  ⟨⟨rfl, by decide, by decide⟩,
    (other_profile_error_skips_enrichment sampleImports
      (sampleRequest (.object [("membership", .str "join")]) none) alice joinSucceeds
      profileDown "#foo:example.org" [Event.worker] ⟨7⟩ rfl (by decide)).2.1 (by decide)⟩

/-- C6, the failing input: with the body `null` and a successful profile
lookup the handler panics at line 69 (assignment to an entry of a nil map): it
returns no response and `PerformJoin` is never called. -/
theorem null_body_with_profile_panics {X : Type} (I : Imports X)
    (req : Request) (device : Device)
    (PerformJoin : Context → PerformJoinRequest → PerformJoinResponse →
      PerformJoinResponse × Option GoError)
    (QueryProfile : Context → String → Profile × Option GoError)
    (roomIDOrAlias : String) (sched : List Event)
    (hbody : req.body = .null)
    (hok : (QueryProfile req.ctx device.UserID).2 = none) :
    (JoinRoomByIDOrAlias I req device PerformJoin QueryProfile roomIDOrAlias
        sched).hasPanicked = true
    ∧ (JoinRoomByIDOrAlias I req device PerformJoin QueryProfile roomIDOrAlias
        sched).response = none
    ∧ (JoinRoomByIDOrAlias I req device PerformJoin QueryProfile roomIDOrAlias
        sched).calls = [] := by
  unfold JoinRoomByIDOrAlias
  rw [prepare_eq, hok, hbody]
  simp [UnmarshalJSONRequest, Outcome.hasPanicked, Outcome.response, Outcome.calls]

/-- C6, the failing input on a sample: `alice` sends the body `null`. -/
theorem null_body_with_profile_panics_witness :
    ((sampleRequest .null none).body = .null
      ∧ (profileFound (sampleRequest .null none).ctx alice.UserID).2 = none)
    ∧ (JoinRoomByIDOrAlias sampleImports (sampleRequest .null none) alice joinSucceeds
        profileFound "#foo:example.org"
        [Event.worker, Event.worker, Event.worker, Event.select .done]).hasPanicked = true :=
  ⟨⟨rfl, rfl⟩,
    (null_body_with_profile_panics sampleImports (sampleRequest .null none) alice
      joinSucceeds profileFound "#foo:example.org"
      [Event.worker, Event.worker, Event.worker, Event.select .done] rfl rfl).1⟩

/-- The part of C6 that the code keeps: when `QueryProfile` succeeds and the
body is not `null`, the handler goes on to the join, and the content of the
join request has `displayname` and `avatar_url` from the profile, over
whatever the body gave for them, and every other key as decoding the body left
it. -/
theorem profile_found_sets_display_fields {X : Type} (I : Imports X)
    (req : Request) (device : Device)
    (PerformJoin : Context → PerformJoinRequest → PerformJoinResponse →
      PerformJoinResponse × Option GoError)
    (QueryProfile : Context → String → Profile × Option GoError)
    (roomIDOrAlias : String) (sched : List Event)
    (hbody : req.body ≠ .null)
    (hok : (QueryProfile req.ctx device.UserID).2 = none) :
    (JoinRoomByIDOrAlias I req device PerformJoin QueryProfile roomIDOrAlias
        sched).workerStarted = true
    ∧ (∀ call ∈ (JoinRoomByIDOrAlias I req device PerformJoin QueryProfile roomIDOrAlias
          sched).calls,
        call.2.Content.get "displayname"
          = some (.str (QueryProfile req.ctx device.UserID).1.DisplayName)
        ∧ call.2.Content.get "avatar_url"
          = some (.str (QueryProfile req.ctx device.UserID).1.AvatarURL)
        ∧ (∀ k, k ≠ "displayname" → k ≠ "avatar_url" →
            call.2.Content.get k = (UnmarshalJSONRequest req.body Content.empty).get k)) := by
  have hprep := prepare_eq I req device QueryProfile roomIDOrAlias
  rw [hok] at hprep
  obtain ⟨es, hes⟩ : ∃ es, UnmarshalJSONRequest req.body Content.empty = some es := by
    cases hb : req.body with
    | null => exact absurd hb hbody
    | object members => simp [UnmarshalJSONRequest, Content.empty]
    | absent => simp [UnmarshalJSONRequest, Content.empty]
    | unreadable => simp [UnmarshalJSONRequest, Content.empty]
    | malformed => simp [UnmarshalJSONRequest, Content.empty]
    | nonObject => simp [UnmarshalJSONRequest, Content.empty]
  simp only [hes] at hprep
  refine ⟨?_, ?_⟩
  · simp [JoinRoomByIDOrAlias, hprep, Outcome.workerStarted]
  · intro call hcall
    obtain ⟨joinReq, hp, hc⟩ :=
      call_mem I req device PerformJoin QueryProfile roomIDOrAlias sched call hcall
    rw [hprep] at hp
    simp only [Prepared.dispatch.injEq] at hp
    subst hc
    rw [← hp, hes]
    refine ⟨by simp [Content.get], by simp [Content.get], ?_⟩
    intro k h1 h2
    simp [Content.get, h1, h2]

end Dendrite
